import Mathlib

/-!
Shallow embedding of `synapse/storage/deviceinbox.py` (class `DeviceInboxStore`).

Modelling choices:
* The three SQL tables (`device_inbox`, `device_federation_outbox`,
  `device_federation_inbox`) and the `devices` directory table are lists of rows;
  `INSERT` appends, `SELECT ... ORDER BY` filters then sorts with a stable
  insertion sort, `LIMIT n` takes the first `n` rows.
* Message payloads are opaque already-serialized strings; `ujson.dumps` /
  `ujson.loads` round-trip them verbatim, so they are stored and returned as-is.
* The stream-id generator (`_device_inbox_id_gen`) is a counter in the store
  state: `get_next()` hands out `counter + 1` and, at scope exit, that becomes
  the current token (sequential execution model).
* `runInteraction` is an atomic transaction: it is modelled by a `commit` flag
  chosen by the environment — on `true` the whole transactional function is
  applied to the database, on `false` the database is unchanged and the failure
  propagates to the caller (the post-`yield` cache updates are skipped).
* The `StreamChangeCache` is an external collaborator: `entity_has_changed`
  marks are recorded in the state as a list of `(entity, position)` events; the
  read-side query `has_entity_changed` is an abstract oracle argument, with the
  cache contract (no false negatives) taken as a hypothesis where a theorem
  needs it.
* Python dicts are association lists (insertion order preserved).
-/

/-- A row of the `device_inbox` table. -/
structure InboxRow where
  user_id : String
  device_id : String
  stream_id : Nat
  message_json : String
  deriving DecidableEq, Repr

/-- A row of the `device_federation_outbox` table. -/
structure OutboxRow where
  destination : String
  stream_id : Nat
  queued_ts : Nat
  messages_json : String
  deriving DecidableEq, Repr

/-- A row of the `device_federation_inbox` dedup table. -/
structure FedInboxRow where
  origin : String
  message_id : String
  received_ts : Nat
  deriving DecidableEq, Repr

/-- The database: the three tables owned by this store plus the `devices`
directory table (rows `(user_id, device_id)`) it reads. -/
structure DB where
  device_inbox : List InboxRow
  device_federation_outbox : List OutboxRow
  device_federation_inbox : List FedInboxRow
  devices : List (String × String)
  deriving DecidableEq, Repr

/-- Store state around the database: the stream-id generator counter (its value
is the current token; `get_next` hands out `counter + 1`) and the change-mark
events recorded against the two stream change caches. -/
structure StoreState where
  db : DB
  counter : Nat
  inbox_cache_marks : List (String × Nat)
  outbox_cache_marks : List (String × Nat)
  deriving DecidableEq, Repr

/-- Local messages argument `messages_by_user_then_device`:
user id → (device id → payload), dicts as association lists. -/
abbrev LocalMessages := List (String × List (String × String))

/-- `ORDER BY stream_id ASC` comparison for `device_inbox` rows. -/
def inboxRowLe (a b : InboxRow) : Prop := a.stream_id ≤ b.stream_id

instance : DecidableRel inboxRowLe := fun a b => Nat.decLe a.stream_id b.stream_id

instance : IsTotal InboxRow inboxRowLe := ⟨fun a b => Nat.le_total a.stream_id b.stream_id⟩

instance : IsTrans InboxRow inboxRowLe := ⟨fun _ _ _ => Nat.le_trans⟩

/-- `ORDER BY stream_id ASC` comparison for `device_federation_outbox` rows. -/
def outboxRowLe (a b : OutboxRow) : Prop := a.stream_id ≤ b.stream_id

instance : DecidableRel outboxRowLe := fun a b => Nat.decLe a.stream_id b.stream_id

instance : IsTotal OutboxRow outboxRowLe := ⟨fun a b => Nat.le_total a.stream_id b.stream_id⟩

instance : IsTrans OutboxRow outboxRowLe := ⟨fun _ _ _ => Nat.le_trans⟩

/-- `_add_messages_to_local_device_inbox_txn`: per user, SELECT the input
device ids that exist in the `devices` table; then INSERT one `device_inbox`
row at `stream_id` for each addressed `(user, device)` found to exist. -/
def add_messages_to_local_device_inbox_txn (db : DB) (stream_id : Nat)
    (messages_by_user_then_device : LocalMessages) : DB :=
  let local_users_and_devices : List (String × String) :=
    messages_by_user_then_device.flatMap fun ud =>
      db.devices.filter fun p =>
        p.1 == ud.1 && ud.2.any fun dm => dm.1 == p.2
  let rows : List InboxRow :=
    messages_by_user_then_device.flatMap fun ud =>
      ud.2.filterMap fun dm =>
        if local_users_and_devices.contains (ud.1, dm.1) then
          some ⟨ud.1, dm.1, stream_id, dm.2⟩
        else
          none
  { db with device_inbox := db.device_inbox ++ rows }

/-- The transactional body of `add_messages_to_device_inbox`: local fan-out
followed by one `device_federation_outbox` row per destination. -/
def add_messages_txn (db : DB) (now_ms stream_id : Nat)
    (local_messages_by_user_then_device : LocalMessages)
    (remote_messages_by_destination : List (String × String)) : DB :=
  let db1 := add_messages_to_local_device_inbox_txn db stream_id
    local_messages_by_user_then_device
  { db1 with device_federation_outbox :=
      db1.device_federation_outbox ++
        remote_messages_by_destination.map fun de =>
          ⟨de.1, stream_id, now_ms, de.2⟩ }

/-- `add_messages_to_device_inbox`: reserve one stream id, run the
transactional body atomically (`commit` is the environment's choice of whether
the transaction commits), then — only on success — record a change mark at the
new stream id for every local user and every destination, and return
`get_current_token()`. On failure the exception propagates: the database and
caches are untouched, but the reserved id is still consumed at scope exit. -/
def add_messages_to_device_inbox (commit : Bool) (now_ms : Nat)
    (st : StoreState)
    (local_messages_by_user_then_device : LocalMessages)
    (remote_messages_by_destination : List (String × String)) :
    Except Unit Nat × StoreState :=
  let stream_id := st.counter + 1
  if commit then
    let db1 := add_messages_txn st.db now_ms stream_id
      local_messages_by_user_then_device remote_messages_by_destination
    let st1 : StoreState :=
      { db := db1
        counter := stream_id
        inbox_cache_marks := st.inbox_cache_marks ++
          local_messages_by_user_then_device.map fun ud => (ud.1, stream_id)
        outbox_cache_marks := st.outbox_cache_marks ++
          remote_messages_by_destination.map fun de => (de.1, stream_id) }
    (.ok st1.counter, st1)
  else
    (.error (), { st with counter := stream_id })

/-- The transactional body of `add_messages_from_remote_to_device_inbox`:
if a `(origin, message_id)` dedup row already exists, return with no writes;
otherwise insert the dedup row and perform the local fan-out. -/
def add_messages_from_remote_txn (db : DB) (origin message_id : String)
    (now_ms stream_id : Nat)
    (local_messages_by_user_then_device : LocalMessages) : DB :=
  if db.device_federation_inbox.any fun r =>
      r.origin == origin && r.message_id == message_id then
    db
  else
    let db1 := { db with device_federation_inbox :=
      db.device_federation_inbox ++ [⟨origin, message_id, now_ms⟩] }
    add_messages_to_local_device_inbox_txn db1 stream_id
      local_messages_by_user_then_device

/-- `add_messages_from_remote_to_device_inbox`: reserve one stream id, run the
dedup-guarded fan-out atomically, then — on success — record an inbox change
mark at the new stream id for every user key of the input (whether or not the
transaction inserted anything). -/
def add_messages_from_remote_to_device_inbox (commit : Bool) (now_ms : Nat)
    (st : StoreState) (origin message_id : String)
    (local_messages_by_user_then_device : LocalMessages) :
    Except Unit Unit × StoreState :=
  let stream_id := st.counter + 1
  if commit then
    let db1 := add_messages_from_remote_txn st.db origin message_id now_ms
      stream_id local_messages_by_user_then_device
    let st1 : StoreState :=
      { db := db1
        counter := stream_id
        inbox_cache_marks := st.inbox_cache_marks ++
          local_messages_by_user_then_device.map fun ud => (ud.1, stream_id)
        outbox_cache_marks := st.outbox_cache_marks }
    (.ok (), st1)
  else
    (.error (), { st with counter := stream_id })

/-- The rows of `device_inbox` addressed to one `(user, device)` pair. -/
def deviceRows (db : DB) (user_id device_id : String) : List InboxRow :=
  db.device_inbox.filter fun r =>
    r.user_id == user_id && r.device_id == device_id

/-- The storage query of `get_new_messages_for_device_txn`:
rows for `(user, device)` with `last_stream_id < stream_id ≤
current_stream_id`, ordered by `stream_id` ascending, capped at `limit`. -/
def deviceInboxQuery (db : DB) (user_id device_id : String)
    (last_stream_id current_stream_id limit : Nat) : List InboxRow :=
  (List.insertionSort inboxRowLe (db.device_inbox.filter fun r =>
      r.user_id == user_id && r.device_id == device_id &&
      last_stream_id < r.stream_id &&
      r.stream_id ≤ current_stream_id)).take limit

/-- `get_new_messages_for_device_txn`: run the query, collect payloads in row
order; `stream_pos` is assigned by the last loop iteration (the last row's
stream id) and reassigned to `current_stream_id` when fewer than `limit` rows
came back. `none` models the Python `UnboundLocalError`: the loop ran zero
times and the `len(messages) < limit` reassignment did not fire, so the
returned variable was never bound. -/
def get_new_messages_for_device_txn (db : DB) (user_id device_id : String)
    (last_stream_id current_stream_id limit : Nat) :
    Option (List String × Nat) :=
  let rows := deviceInboxQuery db user_id device_id last_stream_id
    current_stream_id limit
  let messages := rows.map fun r => r.message_json
  if messages.length < limit then
    some (messages, current_stream_id)
  else
    match rows.getLast? with
    | some r => some (messages, r.stream_id)
    | none => none

/-- `get_new_messages_for_device`: consult the change cache (`hasChanged` is
the external cache oracle `has_entity_changed`); if nothing changed since
`last_stream_id` return `([], current_stream_id)` without touching storage,
otherwise run the transaction. -/
def get_new_messages_for_device (hasChanged : String → Nat → Bool) (db : DB)
    (user_id device_id : String)
    (last_stream_id current_stream_id limit : Nat) :
    Option (List String × Nat) :=
  if hasChanged user_id last_stream_id then
    get_new_messages_for_device_txn db user_id device_id last_stream_id
      current_stream_id limit
  else
    some ([], current_stream_id)

/-- The rows of `device_federation_outbox` queued for one destination. -/
def destRows (db : DB) (destination : String) : List OutboxRow :=
  db.device_federation_outbox.filter fun r => r.destination == destination

/-- The storage query of `get_new_messages_for_remote_destination_txn`. -/
def destOutboxQuery (db : DB) (destination : String)
    (last_stream_id current_stream_id limit : Nat) : List OutboxRow :=
  (List.insertionSort outboxRowLe (db.device_federation_outbox.filter fun r =>
      r.destination == destination &&
      last_stream_id < r.stream_id &&
      r.stream_id ≤ current_stream_id)).take limit

/-- `get_new_messages_for_remote_destination_txn`: same shape as the
per-device read, over the federation outbox. -/
def get_new_messages_for_remote_destination_txn (db : DB)
    (destination : String) (last_stream_id current_stream_id limit : Nat) :
    Option (List String × Nat) :=
  let rows := destOutboxQuery db destination last_stream_id current_stream_id
    limit
  let messages := rows.map fun r => r.messages_json
  if messages.length < limit then
    some (messages, current_stream_id)
  else
    match rows.getLast? with
    | some r => some (messages, r.stream_id)
    | none => none

/-- `get_new_device_msgs_for_remote`: cache-guarded read for a destination. -/
def get_new_device_msgs_for_remote (hasChanged : String → Nat → Bool)
    (db : DB) (destination : String)
    (last_stream_id current_stream_id limit : Nat) :
    Option (List String × Nat) :=
  if hasChanged destination last_stream_id then
    get_new_messages_for_remote_destination_txn db destination last_stream_id
      current_stream_id limit
  else
    some ([], current_stream_id)

/-- Phase one of `get_all_new_device_messages_txn`:
`SELECT stream_id ... GROUP BY stream_id ORDER BY stream_id ASC LIMIT ?` —
the distinct stream ids in `(last_pos, current_pos]`, ascending, capped at
`limit` ids. -/
def selectedStreamIds (db : DB) (last_pos current_pos limit : Nat) :
    List Nat :=
  ((List.insertionSort (fun a b => a ≤ b) ((db.device_inbox.filter fun r =>
      last_pos < r.stream_id && r.stream_id ≤ current_pos).map
        fun r => r.stream_id)).dedup).take limit

/-- `get_all_new_device_messages_txn`: if phase one selected no ids return
`[]`; otherwise phase two returns every row with
`last_pos < stream_id ≤ max selected id`, ordered by stream id. -/
def get_all_new_device_messages_txn (db : DB)
    (last_pos current_pos limit : Nat) : List InboxRow :=
  match (selectedStreamIds db last_pos current_pos limit).getLast? with
  | none => []
  | some max_stream_id_in_limit =>
    List.insertionSort inboxRowLe (db.device_inbox.filter fun r =>
      last_pos < r.stream_id &&
      r.stream_id ≤ max_stream_id_in_limit)

/-- `get_all_new_device_messages`: short-circuit to `[]` when
`last_pos == current_pos`, else run the two-phase transaction. -/
def get_all_new_device_messages (db : DB)
    (last_pos current_pos limit : Nat) : List InboxRow :=
  if last_pos == current_pos then []
  else get_all_new_device_messages_txn db last_pos current_pos limit

/-- `delete_messages_for_device`: delete a device's rows up to a position. -/
def delete_messages_for_device (db : DB) (user_id device_id : String)
    (up_to_stream_id : Nat) : DB :=
  { db with device_inbox := db.device_inbox.filter fun r =>
      !(r.user_id == user_id && r.device_id == device_id &&
        r.stream_id ≤ up_to_stream_id) }

/-- `delete_device_msgs_for_remote`: delete a destination's outbox rows up to
a position. -/
def delete_device_msgs_for_remote (db : DB) (destination : String)
    (up_to_stream_id : Nat) : DB :=
  { db with device_federation_outbox :=
      db.device_federation_outbox.filter fun r =>
        !(r.destination == destination && r.stream_id ≤ up_to_stream_id) }

/-- Device-directory existence test, spelled from the spec's Device Directory
contract: the `(user, device)` pair is present in the `devices` table. -/
def deviceExists (devices : List (String × String))
    (user_id device_id : String) : Bool :=
  devices.contains (user_id, device_id)

/-- Spec-side description of the local fan-out rows (§4.1): one row per
addressed `(user, device)` whose device exists in the Device Directory, at the
allocated position, payload verbatim; messages to non-existent devices are
dropped. -/
def specLocalRows (devices : List (String × String)) (stream_id : Nat)
    (messages_by_user_then_device : LocalMessages) : List InboxRow :=
  messages_by_user_then_device.flatMap fun ud =>
    ud.2.filterMap fun dm =>
      if deviceExists devices ud.1 dm.1 then
        some ⟨ud.1, dm.1, stream_id, dm.2⟩
      else
        none

/-- Chained cursor reads (§4.3 driven to quiescence): starting from
`last`, repeatedly call `get_new_messages_for_device` feeding each returned
`new_last_position` back in as `last_position`, concatenating the pages, until
a read reports `new_last_position = current` (the window is drained). `fuel`
bounds the recursion; a `none` read (the unbound-variable failure) aborts. -/
def drainDevice (hasChanged : String → Nat → Bool) (db : DB)
    (user_id device_id : String) (current limit : Nat) :
    Nat → Nat → List String × Nat
  | 0, last => ([], last)
  | fuel + 1, last =>
    match get_new_messages_for_device hasChanged db user_id device_id last
      current limit with
    | none => ([], last)
    | some (msgs, newLast) =>
      if newLast = current then (msgs, newLast)
      else
        let rest := drainDevice hasChanged db user_id device_id current limit
          fuel newLast
        (msgs ++ rest.1, rest.2)

/-! ### Helper lemmas: the write path -/

theorem flatMap_congr_of_mem {α β : Type} {l : List α} {f g : α → List β}
    (h : ∀ a ∈ l, f a = g a) : l.flatMap f = l.flatMap g := by
  induction l with
  | nil => rfl
  | cons a t ih =>
    simp only [List.flatMap_cons]
    rw [h a (by simp), ih fun x hx => h x (by simp [hx])]

theorem filterMap_congr_of_mem {α β : Type} {l : List α} {f g : α → Option β}
    (h : ∀ a ∈ l, f a = g a) : l.filterMap f = l.filterMap g := by
  induction l with
  | nil => rfl
  | cons a t ih =>
    simp only [List.filterMap_cons]
    rw [h a (by simp), ih fun x hx => h x (by simp [hx])]

/-- The membership test against the per-transaction `local_users_and_devices`
set agrees, for every addressed `(user, device)` pair, with plain existence in
the `devices` table. -/
theorem contains_local_users_eq (db : DB) (msgs : LocalMessages)
    (ud : String × List (String × String)) (hud : ud ∈ msgs)
    (dm : String × String) (hdm : dm ∈ ud.2) :
    ((msgs.flatMap fun v => db.devices.filter fun p =>
        p.1 == v.1 && v.2.any fun w => w.1 == p.2).contains (ud.1, dm.1)) =
      deviceExists db.devices ud.1 dm.1 := by
  unfold deviceExists
  rw [Bool.eq_iff_iff]
  simp only [List.contains, List.elem_iff, List.mem_flatMap, List.mem_filter,
    Bool.and_eq_true, List.any_eq_true, beq_iff_eq]
  constructor
  · rintro ⟨v, _, hmem, _, _⟩
    exact hmem
  · intro hmem
    exact ⟨ud, hud, hmem, rfl, dm, hdm, rfl⟩

/-- `_add_messages_to_local_device_inbox_txn` appends exactly the spec's
fan-out rows (§4.1): one row per addressed pair whose device exists. -/
theorem local_txn_eq_spec (db : DB) (stream_id : Nat) (msgs : LocalMessages) :
    add_messages_to_local_device_inbox_txn db stream_id msgs =
      { db with device_inbox :=
          db.device_inbox ++ specLocalRows db.devices stream_id msgs } := by
  unfold add_messages_to_local_device_inbox_txn specLocalRows
  dsimp only
  congr 1
  congr 1
  apply flatMap_congr_of_mem
  intro ud hud
  apply filterMap_congr_of_mem
  intro dm hdm
  rw [contains_local_users_eq db msgs ud hud dm hdm]

/-- Every spec fan-out row carries the allocated stream position. -/
theorem specLocalRows_stream_id (devices : List (String × String))
    (stream_id : Nat) (msgs : LocalMessages) :
    ∀ r ∈ specLocalRows devices stream_id msgs, r.stream_id = stream_id := by
  intro r hr
  simp only [specLocalRows, List.mem_flatMap, List.mem_filterMap] at hr
  obtain ⟨ud, _, dm, _, hr⟩ := hr
  by_cases h : deviceExists devices ud.1 dm.1 <;> simp [h] at hr
  exact hr ▸ rfl

/-- No spec fan-out row is addressed to a pair absent from the directory. -/
theorem specLocalRows_only_existing (devices : List (String × String))
    (stream_id : Nat) (msgs : LocalMessages) (u d : String)
    (hne : deviceExists devices u d = false) :
    ∀ r ∈ specLocalRows devices stream_id msgs,
      ¬(r.user_id = u ∧ r.device_id = d) := by
  intro r hr ⟨hu, hd⟩
  simp only [specLocalRows, List.mem_flatMap, List.mem_filterMap] at hr
  obtain ⟨ud, _, dm, _, hr⟩ := hr
  by_cases h : deviceExists devices ud.1 dm.1 <;> simp [h] at hr
  rw [← hr] at hu hd
  simp only at hu hd
  rw [hu, hd] at h
  rw [hne] at h
  exact Bool.false_ne_true h

/-! ### Claims about the write path -/

/-- C2: for every batch, `add_messages_to_device_inbox` either fails leaving
the local-inbox and federation-outbox tables unchanged, or succeeds having
inserted exactly the expected local-inbox rows and one federation-outbox row
per destination, all at the single freshly allocated stream position; no
partial fan-out state is observable. -/
theorem enqueue_atomic_no_partial_fanout (now_ms : Nat) (st : StoreState)
    (localMsgs : LocalMessages) (remoteMsgs : List (String × String)) :
    ((add_messages_to_device_inbox false now_ms st localMsgs remoteMsgs).1 =
        .error () ∧
      (add_messages_to_device_inbox false now_ms st localMsgs
        remoteMsgs).2.db = st.db) ∧
    ((add_messages_to_device_inbox true now_ms st localMsgs remoteMsgs).1 =
        .ok (st.counter + 1) ∧
      (add_messages_to_device_inbox true now_ms st localMsgs
          remoteMsgs).2.db.device_inbox =
        st.db.device_inbox ++
          specLocalRows st.db.devices (st.counter + 1) localMsgs ∧
      (add_messages_to_device_inbox true now_ms st localMsgs
          remoteMsgs).2.db.device_federation_outbox =
        st.db.device_federation_outbox ++
          (remoteMsgs.map fun de => ⟨de.1, st.counter + 1, now_ms, de.2⟩) ∧
      (∀ r ∈ specLocalRows st.db.devices (st.counter + 1) localMsgs,
        r.stream_id = st.counter + 1) ∧
      (∀ r ∈ remoteMsgs.map fun de =>
          (⟨de.1, st.counter + 1, now_ms, de.2⟩ : OutboxRow),
        r.stream_id = st.counter + 1)) := by
  refine ⟨⟨rfl, rfl⟩, ?_, ?_, ?_, specLocalRows_stream_id _ _ _, ?_⟩
  · simp [add_messages_to_device_inbox, add_messages_txn, local_txn_eq_spec]
  · simp [add_messages_to_device_inbox, add_messages_txn, local_txn_eq_spec]
  · simp [add_messages_to_device_inbox, add_messages_txn, local_txn_eq_spec]
  · intro r hr
    simp only [List.mem_map] at hr
    obtain ⟨de, _, rfl⟩ := hr
    rfl

/-- C7: a successful `add_messages_to_device_inbox` returns exactly the
stream position that was reserved for the batch, and every row it wrote (to
either table) carries that position. -/
theorem enqueue_returns_reserved_position (now_ms : Nat) (st : StoreState)
    (localMsgs : LocalMessages) (remoteMsgs : List (String × String)) :
    ∃ rowsL rowsR,
      (add_messages_to_device_inbox true now_ms st localMsgs remoteMsgs).1 =
        .ok (st.counter + 1) ∧
      (add_messages_to_device_inbox true now_ms st localMsgs
        remoteMsgs).2.counter = st.counter + 1 ∧
      (add_messages_to_device_inbox true now_ms st localMsgs
          remoteMsgs).2.db.device_inbox = st.db.device_inbox ++ rowsL ∧
      (add_messages_to_device_inbox true now_ms st localMsgs
          remoteMsgs).2.db.device_federation_outbox =
        st.db.device_federation_outbox ++ rowsR ∧
      (∀ r ∈ rowsL, r.stream_id = st.counter + 1) ∧
      (∀ r ∈ rowsR, r.stream_id = st.counter + 1) := by
  refine ⟨specLocalRows st.db.devices (st.counter + 1) localMsgs,
    remoteMsgs.map fun de => ⟨de.1, st.counter + 1, now_ms, de.2⟩,
    rfl, rfl, ?_, ?_, specLocalRows_stream_id _ _ _, ?_⟩
  · simp [add_messages_to_device_inbox, add_messages_txn, local_txn_eq_spec]
  · simp [add_messages_to_device_inbox, add_messages_txn, local_txn_eq_spec]
  · intro r hr
    simp only [List.mem_map] at hr
    obtain ⟨de, _, rfl⟩ := hr
    rfl

/-- C8: an empty batch (both maps empty) raises no error: the call still
spends a fresh stream position, inserts no rows into either table, marks no
cache entries, and returns the position token. -/
theorem enqueue_empty_batch_allocates (now_ms : Nat) (st : StoreState) :
    add_messages_to_device_inbox true now_ms st [] [] =
      (.ok (st.counter + 1), { st with counter := st.counter + 1 }) := by
  simp [add_messages_to_device_inbox, add_messages_txn,
    add_messages_to_local_device_inbox_txn]

/-- C9: replaying `add_messages_from_remote_to_device_inbox` on an already
recorded `(origin, message_id)` leaves all three tables unchanged, yet still
consumes a fresh stream position and marks the inbox change cache at that new
position for every user key of the input. -/
theorem duplicate_ingest_frame_effects (now_ms : Nat) (st : StoreState)
    (origin mid : String) (msgs : LocalMessages)
    (hdup : (st.db.device_federation_inbox.any fun r =>
        r.origin == origin && r.message_id == mid) = true) :
    add_messages_from_remote_to_device_inbox true now_ms st origin mid msgs =
      (.ok (), { st with
        counter := st.counter + 1,
        inbox_cache_marks := st.inbox_cache_marks ++
          msgs.map fun ud => (ud.1, st.counter + 1) }) := by
  simp [add_messages_from_remote_to_device_inbox,
    add_messages_from_remote_txn, hdup]

theorem duplicate_ingest_frame_effects_witness :
    (((⟨⟨[], [], [⟨"srvA", "m1", 5⟩], []⟩, 3, [], []⟩ :
        StoreState).db.device_federation_inbox.any fun r =>
      r.origin == "srvA" && r.message_id == "m1") = true) ∧
    add_messages_from_remote_to_device_inbox true 7
        ⟨⟨[], [], [⟨"srvA", "m1", 5⟩], []⟩, 3, [], []⟩ "srvA" "m1"
        [("alice", [("dev1", "p")])] =
      (.ok (), ⟨⟨[], [], [⟨"srvA", "m1", 5⟩], []⟩, 4, [("alice", 4)], []⟩) :=
  ⟨by decide, duplicate_ingest_frame_effects 7
    ⟨⟨[], [], [⟨"srvA", "m1", 5⟩], []⟩, 3, [], []⟩ "srvA" "m1"
    [("alice", [("dev1", "p")])] (by decide)⟩

/-- C3: calling `add_messages_from_remote_to_device_inbox` twice with
identical arguments applies the batch exactly once: the first call records
the `(origin, message_id)` dedup row and inserts the fan-out rows, and the
second call inserts nothing into any table. -/
theorem ingest_remote_idempotent (t1 t2 : Nat) (st : StoreState)
    (origin mid : String) (msgs : LocalMessages)
    (hfresh : (st.db.device_federation_inbox.any fun r =>
        r.origin == origin && r.message_id == mid) = false) :
    (add_messages_from_remote_to_device_inbox true t1 st origin mid
        msgs).2.db.device_federation_inbox =
      st.db.device_federation_inbox ++ [⟨origin, mid, t1⟩] ∧
    (add_messages_from_remote_to_device_inbox true t1 st origin mid
        msgs).2.db.device_inbox =
      st.db.device_inbox ++ specLocalRows st.db.devices (st.counter + 1) msgs ∧
    (add_messages_from_remote_to_device_inbox true t1 st origin mid
        msgs).2.db.device_federation_outbox =
      st.db.device_federation_outbox ∧
    (add_messages_from_remote_to_device_inbox true t2
        (add_messages_from_remote_to_device_inbox true t1 st origin mid
          msgs).2 origin mid msgs).2.db =
      (add_messages_from_remote_to_device_inbox true t1 st origin mid
        msgs).2.db := by
  have h1 : (add_messages_from_remote_to_device_inbox true t1 st origin mid
      msgs).2.db =
      { st.db with
        device_inbox := st.db.device_inbox ++
          specLocalRows st.db.devices (st.counter + 1) msgs
        device_federation_inbox :=
          st.db.device_federation_inbox ++ [⟨origin, mid, t1⟩] } := by
    simp only [add_messages_from_remote_to_device_inbox,
      add_messages_from_remote_txn, hfresh, if_true, Bool.false_eq_true,
      if_false, local_txn_eq_spec]
  refine ⟨by rw [h1], by rw [h1], by rw [h1], ?_⟩
  have h2 : ((add_messages_from_remote_to_device_inbox true t1 st origin mid
      msgs).2.db.device_federation_inbox.any fun r =>
        r.origin == origin && r.message_id == mid) = true := by
    rw [h1]
    simp [List.any_append]
  have key : ∀ (t : Nat) (st2 : StoreState),
      (st2.db.device_federation_inbox.any fun r =>
        r.origin == origin && r.message_id == mid) = true →
      (add_messages_from_remote_to_device_inbox true t st2 origin mid
        msgs).2.db = st2.db := by
    intro t st2 hdup2
    simp [add_messages_from_remote_to_device_inbox,
      add_messages_from_remote_txn, hdup2]
  exact key t2 _ h2

theorem ingest_remote_idempotent_witness :
    (((⟨⟨[], [], [], [("alice", "dev1")]⟩, 0, [], []⟩ :
        StoreState).db.device_federation_inbox.any fun r =>
      r.origin == "srvA" && r.message_id == "m1") = false) ∧
    (add_messages_from_remote_to_device_inbox true 9
        (add_messages_from_remote_to_device_inbox true 8
          ⟨⟨[], [], [], [("alice", "dev1")]⟩, 0, [], []⟩ "srvA" "m1"
          [("alice", [("dev1", "p")])]).2 "srvA" "m1"
        [("alice", [("dev1", "p")])]).2.db =
      (add_messages_from_remote_to_device_inbox true 8
        ⟨⟨[], [], [], [("alice", "dev1")]⟩, 0, [], []⟩ "srvA" "m1"
        [("alice", [("dev1", "p")])]).2.db :=
  ⟨by decide, (ingest_remote_idempotent 8 9
    ⟨⟨[], [], [], [("alice", "dev1")]⟩, 0, [], []⟩ "srvA" "m1"
    [("alice", [("dev1", "p")])] (by decide)).2.2.2⟩

/-! ### Helper lemmas: the per-device reader -/

/-- In every successful branch of the read transaction, the returned messages
are the payloads of the query rows, in row order. -/
theorem device_txn_messages_shape {db : DB} {u d : String}
    {last cur lim : Nat} {msgs : List String} {pos : Nat}
    (h : get_new_messages_for_device_txn db u d last cur lim =
      some (msgs, pos)) :
    msgs = (deviceInboxQuery db u d last cur lim).map fun r =>
      r.message_json := by
  unfold get_new_messages_for_device_txn at h
  dsimp only at h
  split at h
  · simp only [Option.some.injEq, Prod.mk.injEq] at h
    exact h.1.symm
  · split at h
    · simp only [Option.some.injEq, Prod.mk.injEq] at h
      exact h.1.symm
    · exact absurd h (by simp)

/-- Every query row is a table row for this device inside the window. -/
theorem deviceInboxQuery_subset {db : DB} {u d : String}
    {last cur lim : Nat} :
    ∀ r ∈ deviceInboxQuery db u d last cur lim,
      r ∈ db.device_inbox ∧ r.user_id = u ∧ r.device_id = d ∧
        last < r.stream_id ∧ r.stream_id ≤ cur := by
  intro r hr
  unfold deviceInboxQuery at hr
  have hm := List.mem_of_mem_take hr
  rw [List.mem_insertionSort, List.mem_filter] at hm
  obtain ⟨hmem, hcond⟩ := hm
  simp only [Bool.and_eq_true, beq_iff_eq, decide_eq_true_eq] at hcond
  exact ⟨hmem, hcond.1.1.1, hcond.1.1.2, hcond.1.2, hcond.2⟩

/-- Whatever a per-device read returns came verbatim from that device's table
rows. -/
theorem device_read_payloads_in_table (hasChanged : String → Nat → Bool)
    (db : DB) (u d : String) (last cur lim : Nat) (msgs : List String)
    (pos : Nat)
    (h : get_new_messages_for_device hasChanged db u d last cur lim =
      some (msgs, pos)) :
    ∀ p ∈ msgs, ∃ r ∈ deviceRows db u d, r.message_json = p := by
  intro p hp
  unfold get_new_messages_for_device at h
  split at h
  · have hshape := device_txn_messages_shape h
    subst hshape
    rw [List.mem_map] at hp
    obtain ⟨r, hr, hjson⟩ := hp
    obtain ⟨hmem, hu2, hd2, _, _⟩ := deviceInboxQuery_subset r hr
    refine ⟨r, ?_, hjson⟩
    rw [deviceRows, List.mem_filter]
    exact ⟨hmem, by simp [hu2, hd2]⟩
  · simp only [Option.some.injEq, Prod.mk.injEq] at h
    rw [← h.1] at hp
    exact absurd hp (List.not_mem_nil p)

/-- The fan-out inserts nothing for a `(user, device)` pair absent from the
directory. -/
theorem specLocalRows_filter_nonexistent (devices : List (String × String))
    (stream_id : Nat) (msgs : LocalMessages) (u d : String)
    (hne : deviceExists devices u d = false) :
    (specLocalRows devices stream_id msgs).filter
      (fun r => r.user_id == u && r.device_id == d) = [] := by
  rw [List.filter_eq_nil_iff]
  intro r hr hcond
  simp only [Bool.and_eq_true, beq_iff_eq] at hcond
  exact specLocalRows_only_existing devices stream_id msgs u d hne r hr hcond

/-! ### Claim about the drop invariant -/

/-- C4: on either write path (enqueue or remote ingest), a message addressed
to a `(user, device)` pair absent from the Device Directory is silently
dropped: the device's table rows are unchanged, the rest of the batch still
commits successfully, and any subsequent read for that device returns only
payloads of rows that were already in the table for it. -/
theorem nonexistent_device_dropped (now_ms : Nat) (st : StoreState)
    (localMsgs : LocalMessages) (remoteMsgs : List (String × String))
    (origin mid u d : String)
    (hne : deviceExists st.db.devices u d = false) :
    ((add_messages_to_device_inbox true now_ms st localMsgs remoteMsgs).1 =
        .ok (st.counter + 1) ∧
      deviceRows (add_messages_to_device_inbox true now_ms st localMsgs
        remoteMsgs).2.db u d = deviceRows st.db u d ∧
      ∀ hasChanged last cur lim msgs pos,
        get_new_messages_for_device hasChanged
          (add_messages_to_device_inbox true now_ms st localMsgs
            remoteMsgs).2.db u d last cur lim = some (msgs, pos) →
        ∀ p ∈ msgs, ∃ r ∈ deviceRows st.db u d, r.message_json = p) ∧
    ((add_messages_from_remote_to_device_inbox true now_ms st origin mid
        localMsgs).1 = .ok () ∧
      deviceRows (add_messages_from_remote_to_device_inbox true now_ms st
        origin mid localMsgs).2.db u d = deviceRows st.db u d ∧
      ∀ hasChanged last cur lim msgs pos,
        get_new_messages_for_device hasChanged
          (add_messages_from_remote_to_device_inbox true now_ms st origin
            mid localMsgs).2.db u d last cur lim = some (msgs, pos) →
        ∀ p ∈ msgs, ∃ r ∈ deviceRows st.db u d, r.message_json = p) := by
  have hrows1 : deviceRows (add_messages_to_device_inbox true now_ms st
      localMsgs remoteMsgs).2.db u d = deviceRows st.db u d := by
    have hdb : (add_messages_to_device_inbox true now_ms st localMsgs
        remoteMsgs).2.db.device_inbox =
        st.db.device_inbox ++
          specLocalRows st.db.devices (st.counter + 1) localMsgs := by
      simp [add_messages_to_device_inbox, add_messages_txn, local_txn_eq_spec]
    unfold deviceRows
    rw [hdb, List.filter_append,
      specLocalRows_filter_nonexistent _ _ _ _ _ hne, List.append_nil]
  have hrows2 : deviceRows (add_messages_from_remote_to_device_inbox true
      now_ms st origin mid localMsgs).2.db u d = deviceRows st.db u d := by
    have hdb : (add_messages_from_remote_to_device_inbox true now_ms st
        origin mid localMsgs).2.db.device_inbox = st.db.device_inbox ∨
        (add_messages_from_remote_to_device_inbox true now_ms st origin mid
          localMsgs).2.db.device_inbox =
        st.db.device_inbox ++
          specLocalRows st.db.devices (st.counter + 1) localMsgs := by
      by_cases hdup : (st.db.device_federation_inbox.any fun r =>
          r.origin == origin && r.message_id == mid) = true
      · left
        simp [add_messages_from_remote_to_device_inbox,
          add_messages_from_remote_txn, hdup]
      · right
        simp only [Bool.not_eq_true] at hdup
        simp [add_messages_from_remote_to_device_inbox,
          add_messages_from_remote_txn, hdup, local_txn_eq_spec]
    unfold deviceRows
    rcases hdb with hdb | hdb
    · rw [hdb]
    · rw [hdb, List.filter_append,
        specLocalRows_filter_nonexistent _ _ _ _ _ hne, List.append_nil]
  refine ⟨⟨rfl, hrows1, ?_⟩, ⟨rfl, hrows2, ?_⟩⟩
  · intro hasChanged last cur lim msgs pos h p hp
    have := device_read_payloads_in_table hasChanged _ u d last cur lim msgs
      pos h p hp
    rwa [hrows1] at this
  · intro hasChanged last cur lim msgs pos h p hp
    have := device_read_payloads_in_table hasChanged _ u d last cur lim msgs
      pos h p hp
    rwa [hrows2] at this

theorem nonexistent_device_dropped_witness :
    deviceExists [("alice", "dev1")] "bob" "dev2" = false ∧
    deviceRows (add_messages_to_device_inbox true 0
        ⟨⟨[], [], [], [("alice", "dev1")]⟩, 0, [], []⟩
        [("bob", [("dev2", "zz")])] []).2.db "bob" "dev2" =
      deviceRows ⟨[], [], [], [("alice", "dev1")]⟩ "bob" "dev2" :=
  ⟨by decide, (nonexistent_device_dropped 0
    ⟨⟨[], [], [], [("alice", "dev1")]⟩, 0, [], []⟩
    [("bob", [("dev2", "zz")])] [] "srvA" "m1" "bob" "dev2"
    (by decide)).1.2.1⟩

/-! ### Claims about the per-entity cursor readers -/

/-- C1: in both per-entity cursor reads, when the storage query returns rows:
a full page (row count = `limit`) yields `new_last_position` equal to the last
returned row's stream position, and a partial page (fewer than `limit` rows)
yields `new_last_position` equal to the `current_stream_id` argument, whether
or not a row exists at that position. -/
theorem cursor_read_new_last_position (db : DB) (u d dest : String)
    (last cur lim : Nat) :
    (∀ hne : deviceInboxQuery db u d last cur lim ≠ [],
      ((deviceInboxQuery db u d last cur lim).length = lim →
        get_new_messages_for_device_txn db u d last cur lim =
          some ((deviceInboxQuery db u d last cur lim).map fun r =>
              r.message_json,
            ((deviceInboxQuery db u d last cur lim).getLast hne).stream_id)) ∧
      ((deviceInboxQuery db u d last cur lim).length < lim →
        get_new_messages_for_device_txn db u d last cur lim =
          some ((deviceInboxQuery db u d last cur lim).map fun r =>
            r.message_json, cur))) ∧
    (∀ hne : destOutboxQuery db dest last cur lim ≠ [],
      ((destOutboxQuery db dest last cur lim).length = lim →
        get_new_messages_for_remote_destination_txn db dest last cur lim =
          some ((destOutboxQuery db dest last cur lim).map fun r =>
              r.messages_json,
            ((destOutboxQuery db dest last cur lim).getLast hne).stream_id)) ∧
      ((destOutboxQuery db dest last cur lim).length < lim →
        get_new_messages_for_remote_destination_txn db dest last cur lim =
          some ((destOutboxQuery db dest last cur lim).map fun r =>
            r.messages_json, cur))) := by
  constructor
  · intro hne
    constructor
    · intro hlen
      unfold get_new_messages_for_device_txn
      dsimp only
      rw [List.length_map, hlen, if_neg (lt_irrefl lim),
        List.getLast?_eq_getLast _ hne]
    · intro hlt
      unfold get_new_messages_for_device_txn
      dsimp only
      rw [if_pos (by rw [List.length_map]; exact hlt)]
  · intro hne
    constructor
    · intro hlen
      unfold get_new_messages_for_remote_destination_txn
      dsimp only
      rw [List.length_map, hlen, if_neg (lt_irrefl lim),
        List.getLast?_eq_getLast _ hne]
    · intro hlt
      unfold get_new_messages_for_remote_destination_txn
      dsimp only
      rw [if_pos (by rw [List.length_map]; exact hlt)]

/-- Concrete database used to exercise the cursor readers. -/
def dbC1 : DB :=
  ⟨[⟨"u", "d", 3, "a"⟩, ⟨"u", "d", 7, "b"⟩, ⟨"u", "d", 9, "c"⟩],
   [⟨"dst", 4, 0, "e"⟩], [], []⟩

theorem cursor_read_new_last_position_witness :
    (deviceInboxQuery dbC1 "u" "d" 0 10 2 ≠ [] ∧
      (deviceInboxQuery dbC1 "u" "d" 0 10 2).length = 2 ∧
      destOutboxQuery dbC1 "dst" 0 10 5 ≠ [] ∧
      (destOutboxQuery dbC1 "dst" 0 10 5).length < 5) ∧
    get_new_messages_for_device_txn dbC1 "u" "d" 0 10 2 =
      some (["a", "b"], 7) ∧
    get_new_messages_for_remote_destination_txn dbC1 "dst" 0 10 5 =
      some (["e"], 10) :=
  ⟨⟨by decide, by decide, by decide, by decide⟩,
    by
      rw [((cursor_read_new_last_position dbC1 "u" "d" "dst" 0 10 2).1
        (by decide)).1 (by decide)]
      decide,
    by
      rw [((cursor_read_new_last_position dbC1 "u" "d" "dst" 0 10 5).2
        (by decide)).2 (by decide)]
      decide⟩

/-- C10: whenever the change cache reports a change, the per-device read is
total for every `limit ≥ 1` — the returned position is `current_stream_id`
on a short page (including zero rows from a cache false positive) and the
last row's stream position on a full page; with `limit = 0` the query returns
no rows, the position variable is never assigned, and the read fails instead
of returning a result. -/
theorem device_read_totality (hasChanged : String → Nat → Bool) (db : DB)
    (u d : String) (last cur lim : Nat)
    (hor : hasChanged u last = true) :
    (1 ≤ lim →
      ∃ msgs pos,
        get_new_messages_for_device hasChanged db u d last cur lim =
          some (msgs, pos) ∧
        ((deviceInboxQuery db u d last cur lim).length < lim → pos = cur) ∧
        (∀ hne : deviceInboxQuery db u d last cur lim ≠ [],
          (deviceInboxQuery db u d last cur lim).length = lim →
          pos = ((deviceInboxQuery db u d last cur lim).getLast
            hne).stream_id)) ∧
    (lim = 0 →
      get_new_messages_for_device hasChanged db u d last cur lim = none) := by
  have houter : get_new_messages_for_device hasChanged db u d last cur lim =
      get_new_messages_for_device_txn db u d last cur lim := by
    unfold get_new_messages_for_device
    rw [if_pos hor]
  have hlen_le : (deviceInboxQuery db u d last cur lim).length ≤ lim := by
    unfold deviceInboxQuery
    simp [List.length_take]
  constructor
  · intro hlim
    by_cases hlt : (deviceInboxQuery db u d last cur lim).length < lim
    · refine ⟨(deviceInboxQuery db u d last cur lim).map fun r =>
        r.message_json, cur, ?_, fun _ => rfl, ?_⟩
      · rw [houter]
        unfold get_new_messages_for_device_txn
        dsimp only
        rw [if_pos (by rw [List.length_map]; exact hlt)]
      · intro hne hlen
        exact absurd hlt (by rw [hlen]; exact lt_irrefl lim)
    · have hlen : (deviceInboxQuery db u d last cur lim).length = lim :=
        le_antisymm hlen_le (not_lt.mp hlt)
      have hne : deviceInboxQuery db u d last cur lim ≠ [] := by
        intro hnil
        rw [hnil] at hlen
        simp at hlen
        omega
      refine ⟨(deviceInboxQuery db u d last cur lim).map fun r =>
        r.message_json,
        ((deviceInboxQuery db u d last cur lim).getLast hne).stream_id,
        ?_, fun hc => absurd hc hlt, fun _ _ => rfl⟩
      rw [houter]
      unfold get_new_messages_for_device_txn
      dsimp only
      rw [List.length_map, hlen, if_neg (lt_irrefl lim),
        List.getLast?_eq_getLast _ hne]
  · intro hlim0
    rw [houter]
    subst hlim0
    unfold get_new_messages_for_device_txn deviceInboxQuery
    simp

theorem device_read_totality_witness :
    ((fun _ _ => true : String → Nat → Bool) "u" 0 = true ∧ (1 : Nat) ≤ 1) ∧
    (∃ msgs pos,
      get_new_messages_for_device (fun _ _ => true) dbC1 "u" "d" 0 10 1 =
        some (msgs, pos)) ∧
    get_new_messages_for_device (fun _ _ => true) dbC1 "u" "d" 0 10 0 =
      none :=
  ⟨⟨rfl, by decide⟩,
    by
      obtain ⟨msgs, pos, h, -, -⟩ :=
        (device_read_totality (fun _ _ => true) dbC1 "u" "d" 0 10 1 rfl).1
          (by decide)
      exact ⟨msgs, pos, h⟩,
    (device_read_totality (fun _ _ => true) dbC1 "u" "d" 0 10 0 rfl).2 rfl⟩

/-! ### Claim about the global replication reader -/

/-- Every stream id selected by phase one lies inside the window. -/
theorem selectedStreamIds_in_window (db : DB) (last cur lim : Nat) :
    ∀ s ∈ selectedStreamIds db last cur lim, last < s ∧ s ≤ cur := by
  intro s hs
  unfold selectedStreamIds at hs
  have hs2 := List.mem_of_mem_take hs
  rw [List.mem_dedup, List.mem_insertionSort, List.mem_map] at hs2
  obtain ⟨r, hr, rfl⟩ := hs2
  rw [List.mem_filter] at hr
  have := hr.2
  simp only [Bool.and_eq_true, decide_eq_true_eq] at this
  exact this

/-- Either the global read returns nothing, or there is a maximal selected
stream id so that the result holds exactly the table rows in
`(last_pos, max_selected]`. -/
theorem get_all_mem_characterization (db : DB) (last cur lim : Nat) :
    get_all_new_device_messages db last cur lim = [] ∨
    ∃ maxId, maxId ∈ selectedStreamIds db last cur lim ∧
      last < maxId ∧ maxId ≤ cur ∧
      ∀ r ∈ db.device_inbox,
        (r ∈ get_all_new_device_messages db last cur lim ↔
          last < r.stream_id ∧ r.stream_id ≤ maxId) := by
  unfold get_all_new_device_messages
  by_cases hlc : (last == cur) = true
  · rw [if_pos hlc]
    exact Or.inl rfl
  · rw [if_neg hlc]
    unfold get_all_new_device_messages_txn
    rcases hgl : (selectedStreamIds db last cur lim).getLast? with _ | maxId
    · exact Or.inl rfl
    · right
      have hne : selectedStreamIds db last cur lim ≠ [] := by
        intro hnil
        rw [hnil] at hgl
        exact absurd hgl (by simp)
      have hmax_mem : maxId ∈ selectedStreamIds db last cur lim := by
        rw [List.getLast?_eq_getLast _ hne, Option.some.injEq] at hgl
        rw [← hgl]
        exact List.getLast_mem hne
      obtain ⟨hlt, hle⟩ := selectedStreamIds_in_window db last cur lim maxId
        hmax_mem
      refine ⟨maxId, hmax_mem, hlt, hle, ?_⟩
      intro r hr
      rw [List.mem_insertionSort, List.mem_filter]
      simp [hr]

/-- C5: `get_all_new_device_messages` never splits a stream position across
the page boundary: phase one selects at most `limit` distinct stream
positions in `(last_pos, current_pos]`, and the result is exactly every table
row with position up to the largest selected one — so two rows sharing a
position are always returned together, even when the row count exceeds
`limit`. -/
theorem read_all_never_splits_position (db : DB) (last cur lim : Nat) :
    (selectedStreamIds db last cur lim).length ≤ lim ∧
    (get_all_new_device_messages db last cur lim = [] ∨
      ∃ maxId, maxId ∈ selectedStreamIds db last cur lim ∧
        last < maxId ∧ maxId ≤ cur ∧
        ∀ r ∈ db.device_inbox,
          (r ∈ get_all_new_device_messages db last cur lim ↔
            last < r.stream_id ∧ r.stream_id ≤ maxId)) ∧
    ∀ r1 ∈ db.device_inbox, ∀ r2 ∈ db.device_inbox,
      r1.stream_id = r2.stream_id →
      (r1 ∈ get_all_new_device_messages db last cur lim ↔
        r2 ∈ get_all_new_device_messages db last cur lim) := by
  refine ⟨?_, get_all_mem_characterization db last cur lim, ?_⟩
  · unfold selectedStreamIds
    rw [List.length_take]
    exact min_le_left _ _
  · intro r1 hr1 r2 hr2 hid
    rcases get_all_mem_characterization db last cur lim with hnil | ⟨maxId,
      _, _, _, hchar⟩
    · rw [hnil]
      simp
    · rw [hchar r1 hr1, hchar r2 hr2, hid]

/-- Concrete store used to exercise the enqueue atomicity claim. -/
def stW2 : StoreState := ⟨⟨[], [], [], [("alice", "dev1")]⟩, 0, [], []⟩

theorem enqueue_atomic_no_partial_fanout_witness :
    (add_messages_to_device_inbox false 0 stW2 [("alice", [("dev1", "p")])]
      [("dst", "e")]).2.db = stW2.db ∧
    (add_messages_to_device_inbox true 0 stW2 [("alice", [("dev1", "p")])]
      [("dst", "e")]).1 = .ok 1 ∧
    (⟨"alice", "dev1", 1, "p"⟩ : InboxRow) ∈
      specLocalRows stW2.db.devices 1 [("alice", [("dev1", "p")])] ∧
    (⟨"alice", "dev1", 1, "p"⟩ : InboxRow).stream_id = 1 := by
  have h := enqueue_atomic_no_partial_fanout 0 stW2
    [("alice", [("dev1", "p")])] [("dst", "e")]
  exact ⟨h.1.2, h.2.1, by decide, h.2.2.2.2.1 ⟨"alice", "dev1", 1, "p"⟩
    (by decide)⟩

/-- Concrete store used to exercise the returned-position claim. -/
def stW7 : StoreState := ⟨⟨[], [], [], [("alice", "dev1")]⟩, 4, [], []⟩

theorem enqueue_returns_reserved_position_witness :
    (add_messages_to_device_inbox true 0 stW7 [("alice", [("dev1", "p")])]
      [("dst", "e")]).1 = .ok 5 ∧
    (add_messages_to_device_inbox true 0 stW7 [("alice", [("dev1", "p")])]
      [("dst", "e")]).2.counter = 5 := by
  obtain ⟨rowsL, rowsR, h1, h2, -, -, -, -⟩ :=
    enqueue_returns_reserved_position 0 stW7 [("alice", [("dev1", "p")])]
      [("dst", "e")]
  exact ⟨h1, h2⟩

/-- Concrete database used to exercise the no-split claim. -/
def dbC5 : DB :=
  ⟨[⟨"a", "d", 2, "x"⟩, ⟨"b", "d", 2, "y"⟩, ⟨"c", "d", 5, "z"⟩], [], [], []⟩

theorem read_all_never_splits_position_witness :
    ((⟨"a", "d", 2, "x"⟩ : InboxRow) ∈ dbC5.device_inbox ∧
      (⟨"b", "d", 2, "y"⟩ : InboxRow) ∈ dbC5.device_inbox) ∧
    ((⟨"a", "d", 2, "x"⟩ : InboxRow) ∈
        get_all_new_device_messages dbC5 0 10 1 ↔
      (⟨"b", "d", 2, "y"⟩ : InboxRow) ∈
        get_all_new_device_messages dbC5 0 10 1) :=
  ⟨⟨by decide, by decide⟩,
    (read_all_never_splits_position dbC5 0 10 1).2.2 _ (by decide) _
      (by decide) rfl⟩

/-! ### Helper lemmas: sorted per-device windows for chained cursor reads -/

/-- Strict version of the `ORDER BY stream_id` order on `device_inbox` rows. -/
def inboxRowLt (a b : InboxRow) : Prop := a.stream_id < b.stream_id

instance : IsAntisymm InboxRow inboxRowLt :=
  ⟨fun a _ h1 h2 => absurd (Nat.lt_trans h1 h2) (Nat.lt_irrefl a.stream_id)⟩

/-- A device's table rows in stream order. -/
def sortedDeviceRows (db : DB) (u d : String) : List InboxRow :=
  List.insertionSort inboxRowLe (deviceRows db u d)

/-- A device's table rows with position in `(last, cur]`, in stream order. -/
def windowRows (db : DB) (u d : String) (last cur : Nat) : List InboxRow :=
  (sortedDeviceRows db u d).filter fun r =>
    decide (last < r.stream_id) && decide (r.stream_id ≤ cur)

/-- A run of rows that is sorted by stream id and has pairwise-distinct
stream ids is strictly sorted. -/
theorem pairwise_lt_of_sorted_nodup {l : List InboxRow}
    (hs : List.Pairwise inboxRowLe l)
    (hnd : (l.map fun r => r.stream_id).Nodup) :
    List.Pairwise inboxRowLt l := by
  have hne : List.Pairwise (fun a b : InboxRow =>
      a.stream_id ≠ b.stream_id) l := List.pairwise_map.mp hnd
  exact (hs.and hne).imp fun h => lt_of_le_of_ne h.1 h.2

/-- Distinct stream ids survive sorting. -/
theorem sortedDeviceRows_nodup (db : DB) (u d : String)
    (hnd : ((deviceRows db u d).map fun r => r.stream_id).Nodup) :
    ((sortedDeviceRows db u d).map fun r => r.stream_id).Nodup := by
  unfold sortedDeviceRows
  rw [List.Perm.nodup_iff
    (List.Perm.map _ (List.perm_insertionSort inboxRowLe _))]
  exact hnd

/-- Under distinct stream ids, the window is strictly sorted. -/
theorem windowRows_pairwise_lt (db : DB) (u d : String) (last cur : Nat)
    (hnd : ((deviceRows db u d).map fun r => r.stream_id).Nodup) :
    List.Pairwise inboxRowLt (windowRows db u d last cur) := by
  have hsorted : List.Pairwise inboxRowLe (sortedDeviceRows db u d) :=
    List.sorted_insertionSort inboxRowLe _
  have hple : List.Pairwise inboxRowLe (windowRows db u d last cur) :=
    hsorted.filter _
  have hnd2 : ((windowRows db u d last cur).map fun r =>
      r.stream_id).Nodup :=
    ((List.filter_sublist _).map _).nodup (sortedDeviceRows_nodup db u d hnd)
  exact pairwise_lt_of_sorted_nodup hple hnd2

/-- Under distinct stream ids, the per-device storage query is the first
`limit` rows of the sorted window. -/
theorem deviceInboxQuery_eq_windowRows_take (db : DB) (u d : String)
    (last cur lim : Nat)
    (hnd : ((deviceRows db u d).map fun r => r.stream_id).Nodup) :
    deviceInboxQuery db u d last cur lim =
      (windowRows db u d last cur).take lim := by
  unfold deviceInboxQuery windowRows sortedDeviceRows
  congr 1
  have hfilter_eq : (db.device_inbox.filter fun r =>
      r.user_id == u && r.device_id == d &&
      decide (last < r.stream_id) && decide (r.stream_id ≤ cur)) =
      ((deviceRows db u d).filter fun r =>
        decide (last < r.stream_id) && decide (r.stream_id ≤ cur)) := by
    unfold deviceRows
    rw [List.filter_filter]
    apply List.filter_congr
    intro r _
    rw [Bool.eq_iff_iff]
    simp only [Bool.and_eq_true, decide_eq_true_eq]
    tauto
  rw [hfilter_eq]
  apply List.eq_of_perm_of_sorted (r := inboxRowLt)
  · exact (List.perm_insertionSort inboxRowLe _).trans
      ((List.Perm.filter _ (List.perm_insertionSort inboxRowLe _)).symm)
  · apply pairwise_lt_of_sorted_nodup
    · exact List.sorted_insertionSort inboxRowLe _
    · rw [List.Perm.nodup_iff
        (List.Perm.map _ (List.perm_insertionSort inboxRowLe _))]
      exact ((List.filter_sublist _).map _).nodup hnd
  · exact windowRows_pairwise_lt db u d last cur hnd

/-- In a strictly sorted run, the rows past the `k`-th one are exactly those
with stream id above the `k`-th row's. -/
theorem filter_gt_get_of_pairwise_lt {l : List InboxRow}
    (hp : List.Pairwise inboxRowLt l) :
    ∀ (k : Nat) (hk : k < l.length),
      l.filter (fun r =>
        decide ((l.get ⟨k, hk⟩).stream_id < r.stream_id)) =
        l.drop (k + 1) := by
  induction l with
  | nil => intro k hk; exact absurd hk (by simp)
  | cons a t ih =>
    rw [List.pairwise_cons] at hp
    obtain ⟨ha, ht⟩ := hp
    intro k hk
    cases k with
    | zero =>
      have hget : (a :: t).get ⟨0, hk⟩ = a := rfl
      rw [hget, List.filter_cons]
      rw [if_neg (by simp)]
      rw [List.drop_one, List.tail_cons]
      apply List.filter_eq_self.mpr
      intro b hb
      simpa using ha b hb
    | succ k =>
      have hk2 : k < t.length := by simpa using hk
      have hget : (a :: t).get ⟨k + 1, hk⟩ = t.get ⟨k, hk2⟩ := rfl
      rw [hget, List.filter_cons]
      have hmem : t.get ⟨k, hk2⟩ ∈ t := List.get_mem t k hk2
      rw [if_neg (by
        simp only [decide_eq_true_eq]
        exact fun hc => absurd (Nat.lt_trans (ha _ hmem) hc)
          (Nat.lt_irrefl _))]
      rw [List.drop_succ_cons]
      exact ih ht k hk2

/-! ### Claim about chained cursor reads -/

/-- C6: repeatedly reading the per-device cursor, feeding each returned
`new_last_position` back in as `last_position`, drains the window exactly:
the concatenated pages are the payloads stored for that device with stream
position in `(initial_last, current]`, in stream order, with no duplicates
and no omissions. Hypotheses: the device's rows carry distinct stream
positions (each transaction writes at most one row per device at a fresh
position), the change cache has no false negatives, `limit ≥ 1`, and enough
iterations are allowed. -/
theorem chained_cursor_reads_drain_exactly
    (hasChanged : String → Nat → Bool) (db : DB) (u d : String)
    (cur lim : Nat)
    (hnd : ((deviceRows db u d).map fun r => r.stream_id).Nodup)
    (hcache : ∀ p, hasChanged u p = false →
      ∀ r ∈ deviceRows db u d, r.stream_id ≤ p)
    (hlim : 1 ≤ lim) :
    ∀ (fuel last : Nat), (windowRows db u d last cur).length < fuel →
      drainDevice hasChanged db u d cur lim fuel last =
        ((windowRows db u d last cur).map fun r => r.message_json, cur) := by
  intro fuel
  induction fuel with
  | zero => intro last hfuel; exact absurd hfuel (by simp)
  | succ n ih =>
    intro last hfuel
    by_cases hch : hasChanged u last = true
    · have hquery := deviceInboxQuery_eq_windowRows_take db u d last cur lim
        hnd
      by_cases hsize : (windowRows db u d last cur).length < lim
      · -- partial page: the whole window comes back and the cursor jumps
        -- to `cur`
        have htake : (windowRows db u d last cur).take lim =
            windowRows db u d last cur :=
          List.take_of_length_le (le_of_lt hsize)
        have hread : get_new_messages_for_device hasChanged db u d last cur
            lim = some ((windowRows db u d last cur).map fun r =>
              r.message_json, cur) := by
          unfold get_new_messages_for_device
          rw [if_pos hch]
          unfold get_new_messages_for_device_txn
          dsimp only
          rw [hquery, htake, if_pos (by rw [List.length_map]; exact hsize)]
        simp only [drainDevice, hread]
        rw [if_pos trivial]
      · -- full page: the cursor moves to the last returned row's position
        set W := windowRows db u d last cur with hWdef
        have hlenW : lim ≤ W.length := not_lt.mp hsize
        have hk : lim - 1 < W.length := by omega
        set idk := (W.get ⟨lim - 1, hk⟩).stream_id with hidk
        have hWpair : List.Pairwise inboxRowLt W :=
          windowRows_pairwise_lt db u d last cur hnd
        have hgetlast : (W.take lim).getLast? =
            some (W.get ⟨lim - 1, hk⟩) := by
          rw [List.getLast?_eq_getElem?]
          have hlen : (W.take lim).length = lim := by
            rw [List.length_take]; omega
          rw [hlen, List.getElem?_take, if_pos (by omega),
            List.getElem?_eq_getElem hk, List.get_eq_getElem]
        have hread : get_new_messages_for_device hasChanged db u d last cur
            lim = some ((W.take lim).map fun r => r.message_json, idk) := by
          unfold get_new_messages_for_device
          rw [if_pos hch]
          unfold get_new_messages_for_device_txn
          dsimp only
          rw [hquery,
            if_neg (by rw [List.length_map, List.length_take]; omega),
            hgetlast, hidk]
        have hmemW : W.get ⟨lim - 1, hk⟩ ∈ W := List.get_mem W (lim - 1) hk
        have hWcond : ∀ r ∈ W, last < r.stream_id ∧ r.stream_id ≤ cur := by
          intro r hr
          rw [hWdef, windowRows, List.mem_filter] at hr
          simpa using hr.2
        have hlast_lt : last < idk := by
          rw [hidk]
          exact (hWcond _ hmemW).1
        have hdropW : W.filter (fun r => decide (idk < r.stream_id)) =
            W.drop lim := by
          rw [hidk]
          have h := filter_gt_get_of_pairwise_lt hWpair (lim - 1) hk
          rwa [Nat.sub_add_cancel hlim] at h
        have hnextW : windowRows db u d idk cur = W.drop lim := by
          rw [← hdropW, hWdef]
          unfold windowRows
          rw [List.filter_filter]
          apply List.filter_congr
          intro r _
          rw [Bool.eq_iff_iff]
          simp only [Bool.and_eq_true, decide_eq_true_eq]
          omega
        by_cases hstop : idk = cur
        · -- the page ends exactly at `cur`: nothing remains beyond it
          have hdropnil : W.drop lim = [] := by
            rw [← hnextW, hstop]
            unfold windowRows
            apply List.filter_eq_nil_iff.mpr
            intro r hr
            simp only [Bool.and_eq_true, decide_eq_true_eq, not_and]
            omega
          have htakeall : W.take lim = W := by
            conv_rhs => rw [← List.take_append_drop lim W]
            rw [hdropnil, List.append_nil]
          simp only [drainDevice, hread]
          rw [if_pos hstop, htakeall, hstop]
        · -- recurse on the remaining window
          have hfuel2 : (windowRows db u d idk cur).length < n := by
            rw [hnextW, List.length_drop]
            omega
          have hrec := ih idk hfuel2
          simp only [drainDevice, hread]
          rw [if_neg hstop, hrec]
          dsimp only
          rw [hnextW, ← List.map_append, List.take_append_drop]
    · -- cache fast path: no change since `last`, so the window is empty
      rw [Bool.not_eq_true] at hch
      have hW : windowRows db u d last cur = [] := by
        rw [windowRows, List.filter_eq_nil_iff]
        intro r hr
        have hr2 : r ∈ deviceRows db u d := by
          rw [sortedDeviceRows, List.mem_insertionSort] at hr
          exact hr
        have hle := hcache last hch r hr2
        simp only [Bool.and_eq_true, decide_eq_true_eq, not_and]
        omega
      have hread : get_new_messages_for_device hasChanged db u d last cur
          lim = some ([], cur) := by
        unfold get_new_messages_for_device
        rw [if_neg (by rw [hch]; exact Bool.false_ne_true)]
      simp only [drainDevice, hread]
      rw [if_pos trivial, hW]
      rfl

/-- Concrete database used to exercise the chained-read claim. -/
def dbC6 : DB :=
  ⟨[⟨"u", "d", 3, "a"⟩, ⟨"u", "d", 7, "b"⟩, ⟨"u", "d", 9, "c"⟩],
   [], [], []⟩

theorem chained_cursor_reads_drain_exactly_witness :
    (((deviceRows dbC6 "u" "d").map fun r => r.stream_id).Nodup ∧
      (windowRows dbC6 "u" "d" 0 10).length < 5) ∧
    drainDevice (fun _ _ => true) dbC6 "u" "d" 10 1 5 0 =
      (["a", "b", "c"], 10) := by
  refine ⟨⟨by decide, by decide⟩, ?_⟩
  have h := chained_cursor_reads_drain_exactly (fun _ _ => true) dbC6 "u" "d"
    10 1 (by decide) (fun p hp => absurd hp (by simp)) (by decide) 5 0
    (by decide)
  rw [h]
  decide
